import Mathlib

/-!
# serverless-go-plugin: the example Lambda function

A verification development for `example/functions/example/main.go`:

```go
func handler(ctx context.Context) (string, error) {
	return "hello", nil
}

func main() {
	lambda.Start(handler)
}
```

Go functions are embedded as computations in a small state-and-panic monad
`Go σ`: a computation takes the state of the process and either returns a
value with the final state, or panics.  `handler` and `main` are translated
statement by statement into that monad.
-/

namespace ServerlessGoPlugin

/-! ## Go runtime model -/

/-- A non-nil value of Go's `error` interface. -/
structure GoError where
  msg : String
deriving DecidableEq, Repr

/-- Go's `error` interface type: `none` is the `nil` error. -/
abbrev Err := Option GoError

/-- How a Go call ends: a normal return of a value together with the final
state, or a panic unwinding out of the call. -/
inductive Outcome (σ α : Type) where
  | ret (val : α) (st : σ)
  | panic (msg : String) (st : σ)
deriving DecidableEq, Repr

/-- The value a call returned, when it returned normally. -/
def Outcome.value? {σ α : Type} : Outcome σ α → Option α
  | .ret v _ => some v
  | .panic _ _ => none

/-- The state a call leaves behind, on either exit. -/
def Outcome.state {σ α : Type} : Outcome σ α → σ
  | .ret _ s => s
  | .panic _ s => s

/-- Whether the call ended in a panic. -/
def Outcome.panicked {σ α : Type} : Outcome σ α → Bool
  | .ret _ _ => false
  | .panic _ _ => true

/-- A Go computation over process state `σ` producing an `α`. -/
def Go (σ α : Type) : Type := σ → Outcome σ α

/-- A `return` statement: yields the value and leaves the state alone. -/
def Go.ret {σ α : Type} (a : α) : Go σ α := fun s => Outcome.ret a s

/-- Sequencing of statements: a panic in the first skips the second. -/
def Go.bind {σ α β : Type} (m : Go σ α) (f : α → Go σ β) : Go σ β := fun s =>
  match m s with
  | .ret a s1 => f a s1
  | .panic msg s1 => .panic msg s1

instance {σ : Type} : Monad (Go σ) where
  pure := Go.ret
  bind := Go.bind

/-! ## Contexts -/

/-- The object behind a `context.Context` interface value, as seen through
the four methods of the interface: `Deadline`, `Done`, `Err` and `Value`. -/
structure CtxObj where
  /-- The result of `Deadline()`; `none` when no deadline is set. -/
  deadline : Option Nat
  /-- Whether the channel of `Done()` is closed. -/
  done : Bool
  /-- The result of `Err()`. -/
  err : Err
  /-- The request-scoped key/value pairs behind `Value(key)`. -/
  values : List (String × String)
deriving DecidableEq, Repr

/-- A `context.Context` interface value: the nil interface, or a pointer to
a context object on the heap. -/
inductive Context where
  | nil
  | ref (addr : Nat)
deriving DecidableEq, Repr

/-- The object of `context.Background()`: never cancelled, no deadline, no
values. -/
def CtxObj.background : CtxObj :=
  { deadline := none, done := false, err := none, values := [] }

/-- A context object after its cancel function has run. -/
def CtxObj.cancelled : CtxObj :=
  { deadline := none, done := true, err := some (GoError.mk "context canceled"), values := [] }

/-- A context object carrying a deadline and request metadata. -/
def CtxObj.request : CtxObj :=
  { deadline := some 1730000000, done := false, err := none,
    values := [("AwsRequestID", "8f5e2c1a"), ("InvokedFunctionArn", "arn:aws:lambda:example")] }

/-! ## Process state -/

/-- The answer of one invocation: the two return values of the handler. -/
abbrev Response := String × Err

/-- The state of the process as the host runtime sees it. -/
structure World where
  /-- The heap of context objects, addressed by position. -/
  heap : List CtxObj
  /-- The environment variable `AWS_LAMBDA_RUNTIME_API`: the endpoint the
  host fetches invocations from, when set. -/
  runtimeApi : Option String
  /-- The responses the host has sent back, oldest first. -/
  responses : List Response
  /-- How many times `lambda.Start` has been entered. -/
  startCalls : Nat
deriving DecidableEq, Repr

/-- The context object a context value points to, if any. -/
def World.deref (w : World) : Context → Option CtxObj
  | .nil => none
  | .ref a => w.heap.get? a

/-- A fresh process: a heap with a background, a cancelled and a request
context, the runtime endpoint set, nothing sent. -/
def World.fresh : World :=
  { heap := [CtxObj.background, CtxObj.cancelled, CtxObj.request],
    runtimeApi := some "127.0.0.1:9001", responses := [], startCalls := 0 }

/-! ## The program -/

/-- The type of a function `func(context.Context) (string, error)`. -/
abbrev Handler (σ : Type) : Type := Context → Go σ Response

/-- The function `handler` of main.go:
`func handler(ctx context.Context) (string, error) { return "hello", nil }`. -/
def handler {σ : Type} (_ctx : Context) : Go σ Response :=
  Go.ret ("hello", none)

/-- The function `main` of main.go: `func main() { lambda.Start(handler) }`.
`lambda.Start` belongs to the host library and does not return to `main`, so
it is a parameter, and its result `β` is whatever behaviour the host gives
the process once a function is registered. -/
def main {σ β : Type} (start : Handler σ → β) : β :=
  start handler

/-! ## Host runtime models -/

/-- Calls `h` on each context in turn, threading the process state, and
collects the responses. -/
def invokeAll {σ : Type} (h : Handler σ) : List Context → Go σ (List Response)
  | [] => Go.ret []
  | c :: cs => Go.bind (h c) fun r => Go.bind (invokeAll h cs) fun rs => Go.ret (r :: rs)

/-- What can be seen of the process while the host owns it. The host loop
does not return: either it is still running, waiting for the next invocation,
or the process has exited with a status. -/
inductive Progress where
  | running (w : World)
  | exited (status : Nat) (w : World)
deriving DecidableEq, Repr

/-- One turn of the host loop: calls the registered function on the
invocation received and sends the response back. A panic of the registered
function ends the process. -/
def hostTurn (h : Handler World) (c : Context) (w : World) : Progress :=
  match h c w with
  | .ret r w1 => .running { w1 with responses := w1.responses ++ [r] }
  | .panic _ w1 => .exited 2 w1

/-- The host loop seen after `n` turns, fed by the unending stream `inv` of
invocations: there is no turn after which the loop has returned. -/
def hostLoop (h : Handler World) (inv : Nat → Context) : Nat → World → Progress
  | 0, w => .running w
  | n + 1, w =>
    match hostLoop h inv n w with
    | .running w1 => hostTurn h (inv n) w1
    | .exited status w1 => .exited status w1

/-- A model of `lambda.Start`, which is not part of this repository: the
call is counted; without a runtime endpoint the process exits with status 1
before any invocation; otherwise the loop runs without end, and the result
is what is seen of it after `n` turns. -/
def lambdaStart (h : Handler World) (inv : Nat → Context) (n : Nat) (w : World) :
    Progress :=
  match w.runtimeApi with
  | none => .exited 1 { w with startCalls := w.startCalls + 1 }
  | some _ => hostLoop h inv n { w with startCalls := w.startCalls + 1 }

/-! ## Lemmas on the runtime model -/

/-- Running `handler` on every context of a list returns one
`("hello", nil)` per context and leaves the state as it was. -/
theorem invokeAll_handler_eq {σ : Type} (cs : List Context) (w : σ) :
    invokeAll handler cs w
      = Outcome.ret (List.replicate cs.length (("hello", none) : Response)) w := by
  induction cs with
  | nil => rfl
  | cons c cs ih =>
    simp only [invokeAll, Go.bind, handler, Go.ret, List.length_cons, List.replicate_succ] at ih ⊢
    rw [ih]

/-- The host loop run with `handler` is still running after any number of
turns and has answered each invocation with `("hello", nil)`. -/
theorem hostLoop_handler_eq (inv : Nat → Context) (n : Nat) (w : World) :
    hostLoop handler inv n w
      = Progress.running
          { heap := w.heap
            runtimeApi := w.runtimeApi
            responses := w.responses ++ List.replicate n (("hello", none) : Response)
            startCalls := w.startCalls } := by
  induction n with
  | zero => simp [hostLoop]
  | succ n ih =>
    simp only [hostLoop, ih, hostTurn, handler, Go.ret]
    simp [List.replicate_succ']

/-! ## The claims -/

/-- C1: for every invocation context, in every process state, `handler`
returns the pair of the string "hello" and the nil error; so it does for the
nil context, the background context and an already-cancelled context. -/
theorem handler_returns_hello :
    (∀ (σ : Type) (ctx : Context) (w : σ),
        (handler ctx w).value? = some ("hello", none)) ∧
    (handler Context.nil World.fresh).value? = some ("hello", none) ∧
    (World.fresh.deref (Context.ref 0) = some CtxObj.background ∧
      (handler (Context.ref 0) World.fresh).value? = some ("hello", none)) ∧
    (World.fresh.deref (Context.ref 1) = some CtxObj.cancelled ∧
      CtxObj.cancelled.done = true ∧
      (handler (Context.ref 1) World.fresh).value? = some ("hello", none)) := by
  refine ⟨fun _ _ _ => rfl, rfl, ⟨rfl, rfl⟩, rfl, rfl, rfl⟩

/-- C2: `handler` does not depend on its context: for any two contexts, in
any two process states (so whatever the metadata, deadline or cancellation
state behind them), both calls return, and they return the same result
string and the same error. -/
theorem handler_context_independent (σ₁ σ₂ : Type) (c1 c2 : Context)
    (w1 : σ₁) (w2 : σ₂) :
    ∃ r1 r2 : Response,
      (handler c1 w1).value? = some r1 ∧ (handler c2 w2).value? = some r2 ∧
      r1.1 = r2.1 ∧ r1.2 = r2.2 :=
  ⟨("hello", none), ("hello", none), rfl, rfl, rfl, rfl⟩

/-- C3: repeated invocation is stable: calling `handler` on any finite
sequence of contexts, one call after another, returns ("hello", nil) for each
call; a call made after any number of earlier calls behaves as the same call
made first; and two calls in sequence both return "hello". -/
theorem handler_repeated_stable :
    (∀ (σ : Type) (cs : List Context) (w : σ),
        (invokeAll handler cs w).value?
          = some (List.replicate cs.length (("hello", none) : Response))) ∧
    (∀ (σ : Type) (pre : List Context) (ctx : Context) (w : σ),
        Go.bind (invokeAll handler pre) (fun _ => handler ctx) w = handler ctx w ∧
        (handler ctx w).value? = some ("hello", none)) ∧
    (∀ (σ : Type) (c1 c2 : Context) (w : σ),
        (invokeAll handler [c1, c2] w).value?
          = some [("hello", none), ("hello", none)]) := by
  refine ⟨?_, ?_, ?_⟩
  · intro σ cs w
    rw [invokeAll_handler_eq]
    rfl
  · intro σ pre ctx w
    refine ⟨?_, rfl⟩
    simp only [Go.bind, invokeAll_handler_eq]
  · intro σ c1 c2 w
    rfl

/-- C4: `handler` is total and never panics: for every context and every
process state the call ends in a normal return of a (string, error) pair,
it is not a panic, and the error returned is nil. -/
theorem handler_total_no_panic (σ : Type) (ctx : Context) (w : σ) :
    (∃ (s : String) (e : Err) (w1 : σ),
        handler ctx w = Outcome.ret (s, e) w1 ∧ e = none) ∧
    (handler ctx w).panicked = false ∧
    (∀ (msg : String) (w1 : σ), handler ctx w ≠ Outcome.panic msg w1) := by
  refine ⟨⟨"hello", none, w, rfl, rfl⟩, rfl, ?_⟩
  intro msg w1 h
  simp [handler, Go.ret] at h

/-- C5: `handler` has no side effects: for every context and every process
state the call leaves the state exactly as it found it, the object behind
every context value (the one passed in included) is unchanged, and the call
as a whole is nothing but the return of its value. -/
theorem handler_no_side_effects :
    (∀ (σ : Type) (ctx : Context) (w : σ), (handler ctx w).state = w) ∧
    (∀ (ctx c : Context) (w : World), (handler ctx w).state.deref c = w.deref c) ∧
    (∀ (σ : Type) (ctx : Context),
        (handler ctx : Go σ Response) = Go.ret ("hello", none)) :=
  ⟨fun _ _ _ => rfl, fun _ _ _ => rfl, fun _ _ => rfl⟩

/-- C6: `main` is exactly one call of the host's start operation on
`handler`, with nothing before or after: for every start operation, whatever
it does and whether or not it returns, `main start` is `start handler`. The
function `main` registers, called by any host on any invocation in any state,
returns ("hello", nil) and leaves the state alone. With the model of
`lambda.Start`, a loop that never returns: `main` enters the host once;
without a runtime endpoint the process exits before any invocation and no
response is sent; with one, after every number `n` of turns the loop is still
running and the `n` invocations dispatched so far were each answered
("hello", nil). -/
theorem main_registers_handler :
    (∀ (σ β : Type) (start : Handler σ → β), main start = start handler) ∧
    (∀ (σ : Type) (ctx : Context) (w : σ),
        main (fun (h : Handler σ) => h) ctx w = Outcome.ret ("hello", none) w) ∧
    (∀ (inv : Nat → Context) (n : Nat) (w : World),
        main lambdaStart inv n w
          = match w.runtimeApi with
            | none =>
              Progress.exited 1
                { heap := w.heap
                  runtimeApi := none
                  responses := w.responses
                  startCalls := w.startCalls + 1 }
            | some api =>
              Progress.running
                { heap := w.heap
                  runtimeApi := some api
                  responses := w.responses
                    ++ List.replicate n (("hello", none) : Response)
                  startCalls := w.startCalls + 1 }) := by
  refine ⟨fun _ _ _ => rfl, fun _ _ _ => rfl, ?_⟩
  intro inv n w
  simp only [main, lambdaStart]
  cases hapi : w.runtimeApi with
  | none => simp [hapi]
  | some api => simp [hostLoop_handler_eq, hapi]

end ServerlessGoPlugin
